import Mathlib

/-!
Verification of the currency-bot core (src/main.py).

The bot keeps one Postgres table `users(user_id PK, username, nickname,
balance)` and a small per-conversation finite-state machine used by the
admin money flows.  We embed the table as a list of rows (the primary-key
uniqueness is carried as a `Nodup` hypothesis where a claim needs it), the
database helpers as pure list functions translated from their SQL, each
aiogram handler as a pure function from bot state and input to new bot
state plus the list of reply texts it sends, and the dispatcher as a step
function following aiogram's registration-order routing.  A handler that
would raise (`KeyError` on missing FSM scratch keys, `IndexError` on a
callback payload without an underscore) returns `none`; no effect precedes
those raise points in the Python, so a crashed step leaves the state as it
was.

Texts are Lean `String`s; `str.isdigit` is modelled over ASCII digits
(the claims only concern decimal input) and `int(...)` on such a string is
the usual base-10 value.  Balances and ids are unbounded `Int` (`BIGINT`
overflow is out of scope of every claim).
-/

/-- A row of the `users` table (source: `init_db`,
`CREATE TABLE users (user_id BIGINT PRIMARY KEY, username TEXT, nickname TEXT, balance BIGINT DEFAULT 0)`). -/
structure UserRow where
  user_id : Int
  username : String
  nickname : String
  balance : Int
deriving DecidableEq, Repr

/-- `add_user` (src/main.py:44-51): `INSERT INTO users (user_id, username,
nickname, balance) VALUES ($1, $2, $3, 0) ON CONFLICT (user_id) DO NOTHING`,
with the observed username passed for both `username` and `nickname`. -/
def add_user (db : List UserRow) (user_id : Int) (username : String) : List UserRow :=
  if db.any (fun r => r.user_id == user_id) then db
  else db ++ [{ user_id := user_id, username := username, nickname := username, balance := 0 }]

/-- `get_user` (src/main.py:53-55): `SELECT * FROM users WHERE user_id = $1`
via `fetchrow` (first matching row or none). -/
def get_user (db : List UserRow) (user_id : Int) : Option UserRow :=
  db.find? (fun r => r.user_id == user_id)

/-- `update_balance` (src/main.py:57-59):
`UPDATE users SET balance = balance + $1 WHERE user_id = $2`. -/
def update_balance (db : List UserRow) (user_id : Int) (amount : Int) : List UserRow :=
  db.map (fun r => if r.user_id == user_id then { r with balance := r.balance + amount } else r)

/-- `set_nickname` (src/main.py:61-63):
`UPDATE users SET nickname = $1 WHERE user_id = $2`. -/
def set_nickname (db : List UserRow) (user_id : Int) (new_nick : String) : List UserRow :=
  db.map (fun r => if r.user_id == user_id then { r with nickname := new_nick } else r)

/-- `get_all_users` (src/main.py:65-67): `SELECT user_id FROM users`. -/
def get_all_users (db : List UserRow) : List Int :=
  db.map (fun r => r.user_id)

/-- Python `s.split(sep)` for a one-character separator, over the character
list: `"a_b" ↦ ["a","b"]`, `"ab" ↦ ["ab"]`, `"_" ↦ ["",""]`. -/
def splitOnChar (sep : Char) : List Char → List (List Char)
  | [] => [[]]
  | c :: rest =>
      match splitOnChar sep rest with
      | [] => if c == sep then [[], []] else [[c]]
      | h :: t => if c == sep then [] :: h :: t else (c :: h) :: t

/-- `pre` is a prefix of `s` (used to model aiogram's command matching). -/
def hasPrefix (pre : List Char) (s : List Char) : Bool :=
  s.take pre.length == pre

/-- Python `text.isdigit()` restricted to ASCII decimal digits: true iff the
string is non-empty and every character is `0`-`9`. -/
def isdigit (s : String) : Bool :=
  !s.data.isEmpty && s.data.all Char.isDigit

/-- Python `int(text)` on a string passing `isdigit`: the base-10 value. -/
def digitsToNat (s : String) : Nat :=
  s.data.foldl (fun n c => n * 10 + (c.toNat - 48)) 0

/-- Python `from_user.username or "NoName"`: `None` and the empty string both
fall back to the literal `"NoName"`. -/
def orNoName (username : Option String) : String :=
  match username with
  | none => "NoName"
  | some u => if u.isEmpty then "NoName" else u

/-- The FSM states of `class AdminState(StatesGroup)` (src/main.py:23-27).
`waiting_for_action` is declared in the source but never entered. -/
inductive AdminState where
  | waiting_for_user_id
  | waiting_for_amount
  | waiting_for_action
  | waiting_for_broadcast_amount
deriving DecidableEq, Repr

/-- The FSM scratch dictionary: the only keys the handlers ever write are
`action` (`state.update_data(action=...)`) and `user_id`
(`state.update_data(user_id=...)`); a missing key is `none`. -/
structure FSMData where
  action : Option String
  user_id : Option Int
deriving DecidableEq, Repr

/-- The empty scratch dictionary (fresh conversation, or after `state.clear()`). -/
def FSMData.empty : FSMData := { action := none, user_id := none }

/-- One conversation's view of the bot: the shared `users` table plus this
conversation's FSM state (`none` = no state / idle) and scratch data. -/
structure BotState where
  db : List UserRow
  fsmState : Option AdminState
  fsmData : FSMData
deriving DecidableEq, Repr

/-- The sender attached to an inbound update: `from_user.id` and
`from_user.username` (absent for users without a username). -/
structure Sender where
  id : Int
  username : Option String
deriving DecidableEq, Repr

/-- An inbound update: a text message or an inline-button press carrying its
`callback_data` payload. -/
inductive Update where
  | message (text : String)
  | callback (data : String)
deriving DecidableEq, Repr

/-- `is_admin` (src/main.py:90-91): the sender id equals the configured
`OWNER_ID`. -/
def is_admin (ownerId : Int) (user_id : Int) : Bool :=
  user_id == ownerId

/-- `cmd_start` (src/main.py:71-74): register the sender (username defaulted
to `"NoName"`) and greet. -/
def cmd_start (s : BotState) (sender : Sender) : BotState × List String :=
  ({ s with db := add_user s.db sender.id (orNoName sender.username) },
   ["Привет! Ты в базе. Данные теперь надежно сохранены."])

/-- The profile text rendered by `cmd_me` (src/main.py:82-86). -/
def profileText (u : UserRow) : String :=
  "👤 <b>Профиль:</b> " ++ u.nickname ++ "\n" ++
  "💰 <b>Баланс:</b> " ++ toString u.balance ++ " монет\n" ++
  "🆔 <b>ID:</b> <code>" ++ toString u.user_id ++ "</code>"

/-- `cmd_me` (src/main.py:76-87): register the sender, then render the
profile of the (now present) row. -/
def cmd_me (s : BotState) (sender : Sender) : BotState × List String :=
  match get_user (add_user s.db sender.id (orNoName sender.username)) sender.id with
  | some u => ({ s with db := add_user s.db sender.id (orNoName sender.username) }, [profileText u])
  | none => ({ s with db := add_user s.db sender.id (orNoName sender.username) }, [])

/-- `cmd_admin` (src/main.py:93-101): silently return for non-admin senders,
otherwise show the admin inline keyboard (modelled by its caption text). -/
def cmd_admin (ownerId : Int) (s : BotState) (sender : Sender) : BotState × List String :=
  if !is_admin ownerId sender.id then (s, [])
  else (s, ["Админка:"])

/-- `process_money_action` (src/main.py:103-108): store
`callback.data.split("_")[1]` as the scratch `action`, prompt for the target
id, enter `waiting_for_user_id`.  `none` models the `IndexError` raised when
the payload has no part after an underscore (the router only sends
`admin_add` / `admin_remove` here).  The trailing `callback.answer()` sends
no message text and is not modelled. -/
def process_money_action (s : BotState) (data : String) : Option (BotState × List String) :=
  match (splitOnChar '_' data.data).get? 1 with
  | none => none
  | some act =>
      some ({ s with fsmData := { s.fsmData with action := some (String.mk act) },
                     fsmState := some AdminState.waiting_for_user_id },
            ["Введи ID юзера:"])

/-- `process_user_id` (src/main.py:110-115): non-digit text is re-prompted
with no state change; digit text stores the parsed `user_id` in scratch and
enters `waiting_for_amount`. -/
def process_user_id (s : BotState) (text : String) : BotState × List String :=
  if !isdigit text then (s, ["Нужны цифры."])
  else ({ s with fsmData := { s.fsmData with user_id := some (digitsToNat text : Int) },
                 fsmState := some AdminState.waiting_for_amount },
        ["Введи сумму:"])

/-- `process_amount` (src/main.py:117-125): non-digit text is re-prompted;
digit text is applied as `+amount` when the scratch action is `"add"` and
`-amount` otherwise, the confirmation reports the signed delta, and
`state.clear()` resets to idle with empty scratch.  `none` models the
`KeyError` raised when `action` or `user_id` is missing from scratch (the
first dictionary read precedes every effect, so a crash changes nothing). -/
def process_amount (s : BotState) (text : String) : Option (BotState × List String) :=
  if !isdigit text then some (s, ["Нужны цифры."])
  else
    match s.fsmData.action, s.fsmData.user_id with
    | some act, some uid =>
        let amount : Int := digitsToNat text
        let final : Int := if act == "add" then amount else -amount
        some ({ db := update_balance s.db uid final,
                fsmState := none, fsmData := FSMData.empty },
              ["Готово! Баланс изменен на " ++ toString final ++ "."])
    | _, _ => none

/-- `broadcast_start` (src/main.py:127-130): prompt for the broadcast amount
and enter `waiting_for_broadcast_amount` (scratch untouched). -/
def broadcast_start (s : BotState) : BotState × List String :=
  ({ s with fsmState := some AdminState.waiting_for_broadcast_amount },
   ["Сумма для раздачи всем:"])

/-- `broadcast_finish` (src/main.py:132-140): non-digit text is silently
dropped; digit text is credited to every row of `SELECT user_id FROM users`
one `update_balance` at a time, the reply reports the amount and the user
count, and `state.clear()` resets to idle. -/
def broadcast_finish (s : BotState) (text : String) : BotState × List String :=
  if !isdigit text then (s, [])
  else
    let amount : Int := digitsToNat text
    let users := get_all_users s.db
    ({ db := users.foldl (fun db uid => update_balance db uid amount) s.db,
       fsmState := none, fsmData := FSMData.empty },
     ["Выдано по " ++ toString amount ++ " монет " ++ toString users.length ++ " юзерам."])

/-- `auto_register` (src/main.py:143-146): catch-all message handler, ensures
the sender is registered and sends no reply.  (The `if message.from_user`
guard holds for every update modelled here, all of which carry a sender.) -/
def auto_register (s : BotState) (sender : Sender) : BotState × List String :=
  ({ s with db := add_user s.db sender.id (orNoName sender.username) }, [])

/-- aiogram's `Command("name")` filter, modelled for plain commands: the text
is exactly `/name` or starts with `/name ` (bot-mention suffixes such as
`/name@bot` are elided; no claim depends on them). -/
def isCommand (text : String) (cmd : String) : Bool :=
  text == "/" ++ cmd || hasPrefix ("/" ++ cmd ++ " ").data text.data

/-- The dispatcher: routes one inbound update exactly as aiogram does, in
handler registration order (src/main.py top to bottom).  Message handlers
with a `Command` filter are registered before the state-bound handlers and
match in any FSM state; the state-bound handlers require their state; the
bare `dp.message()` catch-all comes last.  Callback handlers match on
payload in any state.  `none` propagates a handler crash. -/
def step (ownerId : Int) (s : BotState) (sender : Sender) (u : Update) :
    Option (BotState × List String) :=
  match u with
  | Update.callback data =>
      if data == "admin_add" || data == "admin_remove" then
        process_money_action s data
      else if data == "admin_broadcast" then
        some (broadcast_start s)
      else
        some (s, [])
  | Update.message text =>
      if isCommand text "start" then some (cmd_start s sender)
      else if isCommand text "me" then some (cmd_me s sender)
      else if isCommand text "admin" then some (cmd_admin ownerId s sender)
      else if s.fsmState == some AdminState.waiting_for_user_id then
        some (process_user_id s text)
      else if s.fsmState == some AdminState.waiting_for_amount then
        process_amount s text
      else if s.fsmState == some AdminState.waiting_for_broadcast_amount then
        some (broadcast_finish s text)
      else
        some (auto_register s sender)

/-- The states a conversation can be in: the FSM starts idle with empty
scratch over an arbitrary table content, and evolves by successfully
dispatched updates (a crashed handler leaves the state unchanged, hence adds
nothing reachable). -/
inductive Reachable (ownerId : Int) : BotState → Prop where
  | init (db : List UserRow) :
      Reachable ownerId { db := db, fsmState := none, fsmData := FSMData.empty }
  | next (s s' : BotState) (sender : Sender) (u : Update) (replies : List String) :
      Reachable ownerId s → step ownerId s sender u = some (s', replies) →
      Reachable ownerId s'

/-- A fresh idle conversation over an empty table (sample state). -/
def idleState : BotState :=
  { db := [], fsmState := none, fsmData := FSMData.empty }

/-- The sample state after the admin presses the credit button. -/
def userIdState : BotState :=
  { db := [], fsmState := some AdminState.waiting_for_user_id,
    fsmData := { action := some "add", user_id := none } }

/-- The sample state after the admin then enters target id 5. -/
def amountState : BotState :=
  { db := [], fsmState := some AdminState.waiting_for_amount,
    fsmData := { action := some "add", user_id := some 5 } }

/-- The sum of all balances in the table. -/
def balanceSum (db : List UserRow) : Int :=
  (db.map (fun r => r.balance)).sum

/-- The scratch-data invariant the admin flow maintains: whenever a
conversation sits in `waiting_for_user_id` or `waiting_for_amount` its
scratch holds an action `"add"` or `"remove"`, and in `waiting_for_amount`
it additionally holds a parsed (hence non-negative) target user id. -/
def ScratchInv (s : BotState) : Prop :=
  ((s.fsmState = some AdminState.waiting_for_user_id ∨
    s.fsmState = some AdminState.waiting_for_amount) →
    (s.fsmData.action = some "add" ∨ s.fsmData.action = some "remove")) ∧
  (s.fsmState = some AdminState.waiting_for_amount →
    ∃ n : Nat, s.fsmData.user_id = some (n : Int))

/-! ### Helper lemmas about the ledger operations -/

/-- Reading back a present row after `update_balance` sees exactly the added
delta; rows are looked up positionally by `find?`, so no uniqueness is
needed. -/
theorem get_user_update_balance (db : List UserRow) (id a : Int) (r : UserRow)
    (h : get_user db id = some r) :
    get_user (update_balance db id a) id = some { r with balance := r.balance + a } := by
  unfold get_user at h ⊢
  unfold update_balance
  have hr : (r.user_id == id) = true :=
    @List.find?_some UserRow (fun x => x.user_id == id) r db h
  have hp : ((fun x : UserRow => x.user_id == id) ∘
      fun x : UserRow => if x.user_id == id then { x with balance := x.balance + a } else x)
      = fun x : UserRow => x.user_id == id := by
    funext x
    simp only [Function.comp_apply]
    by_cases hx : (x.user_id == id) = true
    · rw [if_pos hx]
    · rw [if_neg hx]
  rw [List.find?_map, hp, h, Option.map_some']
  rw [if_pos hr]

/-- `UPDATE ... WHERE user_id = $2` with no matching row changes nothing. -/
theorem update_balance_absent (db : List UserRow) (id a : Int)
    (h : get_user db id = none) :
    update_balance db id a = db := by
  unfold get_user at h
  rw [List.find?_eq_none] at h
  unfold update_balance
  have hcong : ∀ r ∈ db, (if r.user_id == id then { r with balance := r.balance + a } else r) = r := by
    intro r hr
    simp [h r hr]
  rw [List.map_congr_left hcong, List.map_id']

/-- `INSERT ... ON CONFLICT DO NOTHING` on a present key changes nothing. -/
theorem add_user_present (db : List UserRow) (id : Int) (u : String) (r : UserRow)
    (h : get_user db id = some r) :
    add_user db id u = db := by
  unfold get_user at h
  unfold add_user
  have : db.any (fun r => r.user_id == id) = true := by
    rw [List.any_eq_true]
    exact ⟨r, List.mem_of_find?_eq_some h,
           @List.find?_some UserRow (fun x => x.user_id == id) r db h⟩
  rw [this]
  simp

/-- `INSERT ... ON CONFLICT DO NOTHING` on an absent key appends the fresh
row, which the point lookup then returns. -/
theorem get_user_add_user_absent (db : List UserRow) (id : Int) (u : String)
    (h : get_user db id = none) :
    add_user db id u = db ++ [{ user_id := id, username := u, nickname := u, balance := 0 }] ∧
    get_user (add_user db id u) id
      = some { user_id := id, username := u, nickname := u, balance := 0 } := by
  unfold get_user at h
  have hall := List.find?_eq_none.mp h
  have hany : db.any (fun r => r.user_id == id) = false := by
    rw [List.any_eq_false]
    exact hall
  have heq : add_user db id u
      = db ++ [{ user_id := id, username := u, nickname := u, balance := 0 }] := by
    unfold add_user
    rw [hany]
    simp
  refine ⟨heq, ?_⟩
  rw [heq]
  unfold get_user
  rw [List.find?_append, h]
  simp

/-- Folding `update_balance` with a fixed amount over a list of ids credits
each row once per occurrence of its key in the list. -/
theorem foldl_update_balance (a : Int) (ids : List Int) (db : List UserRow) :
    ids.foldl (fun d uid => update_balance d uid a) db
      = db.map (fun r => { r with balance := r.balance + a * (ids.count r.user_id : Int) }) := by
  induction ids generalizing db with
  | nil =>
      have hcong : ∀ r ∈ db,
          ({ r with balance := r.balance + a * (List.count r.user_id ([] : List Int) : Int) } : UserRow) = r := by
        intro r _
        simp
      simp only [List.foldl_nil]
      rw [List.map_congr_left hcong, List.map_id']
  | cons u rest ih =>
      rw [List.foldl_cons, ih]
      unfold update_balance
      rw [List.map_map]
      apply List.map_congr_left
      intro r _
      simp only [Function.comp_apply]
      by_cases hmatch : (r.user_id == u) = true
      · have hu : r.user_id = u := beq_iff_eq.mp hmatch
        rw [if_pos hmatch, List.count_cons]
        have : (u == r.user_id) = true := beq_iff_eq.mpr hu.symm
        rw [this]
        simp only [if_pos rfl]
        show ({ r with balance := r.balance + a + a * (rest.count r.user_id : Int) } : UserRow)
          = { r with balance := r.balance + a * ((rest.count r.user_id + 1 : Nat) : Int) }
        have : r.balance + a + a * (rest.count r.user_id : Int)
            = r.balance + a * ((rest.count r.user_id + 1 : Nat) : Int) := by
          push_cast
          ring
        rw [this]
      · have hu : r.user_id ≠ u := by
          intro hcontra
          exact hmatch (beq_iff_eq.mpr hcontra)
        rw [if_neg hmatch, List.count_cons]
        have : (u == r.user_id) = false := by
          rw [beq_eq_false_iff_ne]
          exact fun hcontra => hu hcontra.symm
        rw [this]
        simp

/-- On non-digit text `process_amount` re-prompts and changes nothing. -/
theorem process_amount_nondigit (s : BotState) (text : String)
    (ht : isdigit text = false) :
    process_amount s text = some (s, ["Нужны цифры."]) := by
  unfold process_amount
  rw [ht]
  rfl

/-- On digit text with both scratch keys present, `process_amount` applies
the signed delta, reports it, and clears the conversation. -/
theorem process_amount_digit (s : BotState) (text : String) (act : String) (uid : Int)
    (ha : s.fsmData.action = some act) (hu : s.fsmData.user_id = some uid)
    (ht : isdigit text = true) :
    process_amount s text
      = some ({ db := update_balance s.db uid
                  (if act == "add" then (digitsToNat text : Int) else -(digitsToNat text : Int)),
                fsmState := none, fsmData := FSMData.empty },
              ["Готово! Баланс изменен на "
                ++ toString (if act == "add" then (digitsToNat text : Int)
                             else -(digitsToNat text : Int)) ++ "."]) := by
  unfold process_amount
  rw [ht, ha, hu]
  rfl

/-- On digit text with the `action` key missing, `process_amount` raises
(`KeyError`), modelled as `none`. -/
theorem process_amount_no_action (s : BotState) (text : String)
    (ha : s.fsmData.action = none) (ht : isdigit text = true) :
    process_amount s text = none := by
  unfold process_amount
  rw [ht, ha]
  rfl

/-- Mapping a uniform credit over the table raises the sum of balances by
the credit times the number of rows. -/
theorem balanceSum_map_add (db : List UserRow) (a : Int) :
    balanceSum (db.map (fun r => { r with balance := r.balance + a }))
      = balanceSum db + a * (db.length : Int) := by
  induction db with
  | nil => simp [balanceSum]
  | cons r rest ih =>
      unfold balanceSum at *
      simp only [List.map_cons, List.sum_cons, List.length_cons]
      rw [ih]
      push_cast
      ring

/-! ### Claim theorems -/

/-- C3: for every registered user id and all integers `d1`, `d2`, applying
`adjust_balance(id, d1)` and then `adjust_balance(id, d2)` yields a balance
equal to the initial balance plus `d1` plus `d2` (the rest of the row is
untouched). -/
theorem adjust_balance_additive (db : List UserRow) (id d1 d2 : Int) (r : UserRow)
    (h : get_user db id = some r) :
    get_user (update_balance (update_balance db id d1) id d2) id
      = some { r with balance := r.balance + d1 + d2 } := by
  have h1 := get_user_update_balance db id d1 r h
  exact get_user_update_balance (update_balance db id d1) id d2 _ h1

theorem adjust_balance_additive_witness :
    get_user [({ user_id := 7, username := "u", nickname := "u", balance := 3 } : UserRow)] 7
      = some { user_id := 7, username := "u", nickname := "u", balance := 3 } ∧
    get_user (update_balance
        (update_balance [({ user_id := 7, username := "u", nickname := "u", balance := 3 } : UserRow)] 7 5)
        7 (-2)) 7
      = some { user_id := 7, username := "u", nickname := "u", balance := 3 + 5 + -2 } :=
  ⟨by decide,
   adjust_balance_additive [{ user_id := 7, username := "u", nickname := "u", balance := 3 }]
     7 5 (-2) { user_id := 7, username := "u", nickname := "u", balance := 3 } (by decide)⟩

/-- C4: `ensure_user` (`add_user`) is idempotent — a second call with the
same id leaves the table exactly as the first call left it (same rows, no
duplicate, balance untouched) — and on an absent id it inserts a row with
balance 0. -/
theorem ensure_user_idempotent (db : List UserRow) (id : Int) (u1 u2 : String) :
    add_user (add_user db id u1) id u2 = add_user db id u1 ∧
    (get_user db id = none →
      get_user (add_user db id u1) id
        = some { user_id := id, username := u1, nickname := u1, balance := 0 }) := by
  constructor
  · cases hfind : get_user db id with
    | some r =>
        rw [add_user_present db id u1 r hfind, add_user_present db id u2 r hfind]
    | none =>
        exact add_user_present (add_user db id u1) id u2 _
          (get_user_add_user_absent db id u1 hfind).2
  · intro h
    exact (get_user_add_user_absent db id u1 h).2

theorem ensure_user_idempotent_witness :
    add_user (add_user [] 5 "a") 5 "b" = add_user [] 5 "a" ∧
    get_user (add_user ([] : List UserRow) 5 "a") 5
      = some { user_id := 5, username := "a", nickname := "a", balance := 0 } := by
  have h := ensure_user_idempotent [] 5 "a" "b"
  exact ⟨h.1, h.2 (by decide)⟩

/-- C5: adjusting an id that is not in the table is a silent no-op — the
table is returned unchanged and no error is signalled — and consequently the
admin credit/debit flow (`process_amount`) applied to an unregistered
scratch `user_id` leaves the ledger entirely unchanged. -/
theorem adjust_absent_noop (db : List UserRow) (id delta : Int)
    (h : get_user db id = none) :
    update_balance db id delta = db ∧
    ∀ (st : Option AdminState) (act : Option String) (text : String)
      (out : BotState × List String),
      process_amount { db := db, fsmState := st, fsmData := { action := act, user_id := some id } } text
        = some out →
      out.1.db = db := by
  refine ⟨update_balance_absent db id delta h, ?_⟩
  intro st act text out hout
  cases ht : isdigit text with
  | false =>
      rw [process_amount_nondigit _ text ht] at hout
      have h1 := Option.some.inj hout
      subst h1
      rfl
  | true =>
      cases act with
      | none =>
          rw [process_amount_no_action _ text rfl ht] at hout
          exact Option.noConfusion hout
      | some a =>
          rw [process_amount_digit _ text a id rfl rfl ht] at hout
          have h1 := Option.some.inj hout
          subst h1
          exact update_balance_absent db id _ h

theorem adjust_absent_noop_witness :
    update_balance [({ user_id := 1, username := "a", nickname := "a", balance := 4 } : UserRow)] 123 50
      = [({ user_id := 1, username := "a", nickname := "a", balance := 4 } : UserRow)] := by
  have h := adjust_absent_noop
    [({ user_id := 1, username := "a", nickname := "a", balance := 4 } : UserRow)] 123 50 (by decide)
  exact h.1

/-- C9: `adjust_balance` is frame-preserving — positionally, every row keeps
its `user_id`, `username` and `nickname`; rows whose id differs from the
target are untouched entirely; the row with the target id changes only by
adding the delta to its balance. -/
theorem update_balance_frame (db : List UserRow) (id delta : Int) :
    List.Forall₂
      (fun r r' : UserRow =>
        r'.user_id = r.user_id ∧ r'.username = r.username ∧ r'.nickname = r.nickname ∧
        (r.user_id ≠ id → r' = r) ∧ (r.user_id = id → r'.balance = r.balance + delta))
      db (update_balance db id delta) := by
  unfold update_balance
  rw [List.forall₂_map_right_iff, List.forall₂_same]
  intro r _
  by_cases h : r.user_id = id
  · rw [if_pos (beq_iff_eq.mpr h)]
    exact ⟨rfl, rfl, rfl, fun hc => absurd h hc, fun _ => rfl⟩
  · rw [if_neg (fun hc => h (beq_iff_eq.mp hc))]
    exact ⟨rfl, rfl, rfl, fun _ => rfl, fun hc => absurd hc h⟩

/-- C2: on digit text `a` with the table holding `n` rows (keys unique, as
the primary key guarantees), `broadcast_finish` adds `+a` to every
registered user's balance — so the sum of balances grows by exactly
`a * n` — reports the count `n`, and returns the conversation to idle. -/
theorem broadcast_applies_to_all (s : BotState) (text : String)
    (hd : isdigit text = true)
    (hnodup : (s.db.map (fun r => r.user_id)).Nodup) :
    broadcast_finish s text
      = ({ db := s.db.map (fun r => { r with balance := r.balance + (digitsToNat text : Int) }),
           fsmState := none, fsmData := FSMData.empty },
         ["Выдано по " ++ toString ((digitsToNat text : Nat) : Int) ++ " монет "
           ++ toString s.db.length ++ " юзерам."]) ∧
    balanceSum (broadcast_finish s text).1.db
      = balanceSum s.db + (digitsToNat text : Int) * (s.db.length : Int) := by
  have hdb : (get_all_users s.db).foldl
        (fun db uid => update_balance db uid ((digitsToNat text : Nat) : Int)) s.db
      = s.db.map (fun r => { r with balance := r.balance + (digitsToNat text : Int) }) := by
    rw [foldl_update_balance]
    apply List.map_congr_left
    intro r hr
    have hcount : (get_all_users s.db).count r.user_id = 1 :=
      List.count_eq_one_of_mem hnodup (List.mem_map_of_mem _ hr)
    rw [hcount]
    norm_num
  have hbf : broadcast_finish s text
      = ({ db := (get_all_users s.db).foldl
              (fun db uid => update_balance db uid ((digitsToNat text : Nat) : Int)) s.db,
           fsmState := none, fsmData := FSMData.empty },
         ["Выдано по " ++ toString ((digitsToNat text : Nat) : Int) ++ " монет "
           ++ toString (get_all_users s.db).length ++ " юзерам."]) := by
    unfold broadcast_finish
    rw [hd]
    rfl
  have hlen : (get_all_users s.db).length = s.db.length := by
    unfold get_all_users
    rw [List.length_map]
  constructor
  · rw [hbf, hdb, hlen]
  · rw [hbf]
    show balanceSum ((get_all_users s.db).foldl
        (fun db uid => update_balance db uid ((digitsToNat text : Nat) : Int)) s.db)
      = balanceSum s.db + (digitsToNat text : Int) * (s.db.length : Int)
    rw [hdb]
    exact balanceSum_map_add s.db _

theorem broadcast_applies_to_all_witness :
    balanceSum (broadcast_finish
        { db := [{ user_id := 1, username := "a", nickname := "a", balance := 0 },
                 { user_id := 2, username := "b", nickname := "b", balance := 5 }],
          fsmState := some AdminState.waiting_for_broadcast_amount,
          fsmData := FSMData.empty } "10").1.db
      = balanceSum [{ user_id := 1, username := "a", nickname := "a", balance := 0 },
                    { user_id := 2, username := "b", nickname := "b", balance := 5 }]
        + (digitsToNat "10" : Int)
          * (([{ user_id := 1, username := "a", nickname := "a", balance := 0 },
               { user_id := 2, username := "b", nickname := "b", balance := 5 }] : List UserRow).length : Int) := by
  have h := broadcast_applies_to_all
    { db := [{ user_id := 1, username := "a", nickname := "a", balance := 0 },
             { user_id := 2, username := "b", nickname := "b", balance := 5 }],
      fsmState := some AdminState.waiting_for_broadcast_amount,
      fsmData := FSMData.empty } "10" (by decide) (by decide)
  exact h.2

/-- C6: in `awaiting_amount` with scratch `{action, user_id}` present, digit
text is applied as `+amount` when the action is `"add"` (credit) and
`-amount` when it is `"remove"` (debit) to the scratch target id, the
confirmation reports the signed delta, and the conversation returns to idle
with the scratch cleared. -/
theorem process_amount_signed (s : BotState) (uid : Int) (text : String)
    (hu : s.fsmData.user_id = some uid) (ht : isdigit text = true) :
    (s.fsmData.action = some "add" →
      process_amount s text
        = some ({ db := update_balance s.db uid ((digitsToNat text : Nat) : Int),
                  fsmState := none, fsmData := FSMData.empty },
                ["Готово! Баланс изменен на " ++ toString ((digitsToNat text : Nat) : Int) ++ "."])) ∧
    (s.fsmData.action = some "remove" →
      process_amount s text
        = some ({ db := update_balance s.db uid (-((digitsToNat text : Nat) : Int)),
                  fsmState := none, fsmData := FSMData.empty },
                ["Готово! Баланс изменен на " ++ toString (-((digitsToNat text : Nat) : Int)) ++ "."])) := by
  constructor
  · intro ha
    rw [process_amount_digit s text "add" uid ha hu ht]
    rfl
  · intro ha
    rw [process_amount_digit s text "remove" uid ha hu ht]
    rfl

theorem process_amount_signed_witness :
    process_amount
        { db := [{ user_id := 123, username := "u", nickname := "u", balance := 0 }],
          fsmState := some AdminState.waiting_for_amount,
          fsmData := { action := some "add", user_id := some 123 } } "50"
      = some ({ db := [{ user_id := 123, username := "u", nickname := "u", balance := 50 }],
                fsmState := none, fsmData := FSMData.empty },
              ["Готово! Баланс изменен на 50."]) ∧
    process_amount
        { db := [{ user_id := 123, username := "u", nickname := "u", balance := 0 }],
          fsmState := some AdminState.waiting_for_amount,
          fsmData := { action := some "remove", user_id := some 123 } } "50"
      = some ({ db := [{ user_id := 123, username := "u", nickname := "u", balance := -50 }],
                fsmState := none, fsmData := FSMData.empty },
              ["Готово! Баланс изменен на -50."]) := by
  have h1 := process_amount_signed
    { db := [{ user_id := 123, username := "u", nickname := "u", balance := 0 }],
      fsmState := some AdminState.waiting_for_amount,
      fsmData := { action := some "add", user_id := some 123 } } 123 "50" rfl (by decide)
  have h2 := process_amount_signed
    { db := [{ user_id := 123, username := "u", nickname := "u", balance := 0 }],
      fsmState := some AdminState.waiting_for_amount,
      fsmData := { action := some "remove", user_id := some 123 } } 123 "50" rfl (by decide)
  exact ⟨h1.1 rfl, h2.2 rfl⟩

/-- C7: non-digit text in `awaiting_target_user_id` or `awaiting_amount` is
answered with the retry prompt "Нужны цифры." and leaves the state and
scratch unchanged; non-digit text at the broadcast-amount step is silently
dropped — no reply, no state change. -/
theorem nonnumeric_input (s : BotState) (text : String)
    (h : isdigit text = false) :
    process_user_id s text = (s, ["Нужны цифры."]) ∧
    process_amount s text = some (s, ["Нужны цифры."]) ∧
    broadcast_finish s text = (s, []) := by
  refine ⟨?_, process_amount_nondigit s text h, ?_⟩
  · unfold process_user_id
    rw [h]
    rfl
  · unfold broadcast_finish
    rw [h]
    rfl

theorem nonnumeric_input_witness :
    process_user_id
        { db := [], fsmState := some AdminState.waiting_for_user_id,
          fsmData := { action := some "add", user_id := none } } "abc"
      = ({ db := [], fsmState := some AdminState.waiting_for_user_id,
           fsmData := { action := some "add", user_id := none } }, ["Нужны цифры."]) ∧
    broadcast_finish
        { db := [], fsmState := some AdminState.waiting_for_broadcast_amount,
          fsmData := FSMData.empty } "abc"
      = ({ db := [], fsmState := some AdminState.waiting_for_broadcast_amount,
           fsmData := FSMData.empty }, []) := by
  have h1 := nonnumeric_input
    { db := [], fsmState := some AdminState.waiting_for_user_id,
      fsmData := { action := some "add", user_id := none } } "abc" (by decide)
  have h2 := nonnumeric_input
    { db := [], fsmState := some AdminState.waiting_for_broadcast_amount,
      fsmData := FSMData.empty } "abc" (by decide)
  exact ⟨h1.1, h2.2.2⟩

/-- The table `cmd_me` leaves behind is the one `add_user` produced,
whichever way the profile lookup goes. -/
theorem cmd_me_db (s : BotState) (sender : Sender) :
    (cmd_me s sender).1.db = add_user s.db sender.id (orNoName sender.username) := by
  unfold cmd_me
  generalize get_user (add_user s.db sender.id (orNoName sender.username)) sender.id = o
  cases o <;> rfl

/-- C8: a sender whose transport profile has no username is registered with
the literal "NoName" as both the username and the nickname of the newly
created row — by `/start`, by `/me`, and by the catch-all auto-registration
alike. -/
theorem noname_registration (s : BotState) (id : Int)
    (h : get_user s.db id = none) :
    get_user (cmd_start s { id := id, username := none }).1.db id
      = some { user_id := id, username := "NoName", nickname := "NoName", balance := 0 } ∧
    get_user (cmd_me s { id := id, username := none }).1.db id
      = some { user_id := id, username := "NoName", nickname := "NoName", balance := 0 } ∧
    get_user (auto_register s { id := id, username := none }).1.db id
      = some { user_id := id, username := "NoName", nickname := "NoName", balance := 0 } := by
  have hadd := (get_user_add_user_absent s.db id "NoName" h).2
  refine ⟨hadd, ?_, hadd⟩
  rw [cmd_me_db]
  exact hadd

theorem noname_registration_witness :
    get_user (cmd_start { db := [], fsmState := none, fsmData := FSMData.empty }
        { id := 9, username := none }).1.db 9
      = some { user_id := 9, username := "NoName", nickname := "NoName", balance := 0 } ∧
    get_user (auto_register { db := [], fsmState := none, fsmData := FSMData.empty }
        { id := 9, username := none }).1.db 9
      = some { user_id := 9, username := "NoName", nickname := "NoName", balance := 0 } := by
  have h := noname_registration { db := [], fsmState := none, fsmData := FSMData.empty } 9 (by decide)
  exact ⟨h.1, h.2.2⟩

/-! ### Handler shape lemmas for the dispatcher analysis -/

/-- `process_money_action` on the credit button payload stores action
`"add"` and prompts for the target id. -/
theorem process_money_action_add (s : BotState) :
    process_money_action s "admin_add"
      = some ({ s with fsmData := { s.fsmData with action := some "add" },
                       fsmState := some AdminState.waiting_for_user_id },
              ["Введи ID юзера:"]) := by
  unfold process_money_action
  rw [(by decide : (splitOnChar '_' ("admin_add" : String).data).get? 1
        = some ("add" : String).data)]

/-- `process_money_action` on the debit button payload stores action
`"remove"` and prompts for the target id. -/
theorem process_money_action_remove (s : BotState) :
    process_money_action s "admin_remove"
      = some ({ s with fsmData := { s.fsmData with action := some "remove" },
                       fsmState := some AdminState.waiting_for_user_id },
              ["Введи ID юзера:"]) := by
  unfold process_money_action
  rw [(by decide : (splitOnChar '_' ("admin_remove" : String).data).get? 1
        = some ("remove" : String).data)]

/-- On non-digit text `process_user_id` re-prompts and changes nothing. -/
theorem process_user_id_nondigit (s : BotState) (text : String)
    (ht : isdigit text = false) :
    process_user_id s text = (s, ["Нужны цифры."]) := by
  unfold process_user_id
  rw [ht]
  rfl

/-- On digit text `process_user_id` stores the parsed target id and moves to
`waiting_for_amount`. -/
theorem process_user_id_digit (s : BotState) (text : String)
    (ht : isdigit text = true) :
    process_user_id s text
      = ({ s with fsmData := { s.fsmData with user_id := some ((digitsToNat text : Nat) : Int) },
                  fsmState := some AdminState.waiting_for_amount },
         ["Введи сумму:"]) := by
  unfold process_user_id
  rw [ht]
  rfl

/-- `broadcast_finish` either ends idle (digit text) or silently drops the
message leaving everything unchanged (non-digit text). -/
theorem broadcast_finish_cases (s : BotState) (text : String) :
    (broadcast_finish s text).1.fsmState = none ∨ broadcast_finish s text = (s, []) := by
  unfold broadcast_finish
  cases hd : isdigit text
  · right
    rfl
  · left
    rfl

/-- `cmd_admin` never changes the conversation state, whichever way the
identity check goes. -/
theorem cmd_admin_fst (ownerId : Int) (s : BotState) (sender : Sender) :
    (cmd_admin ownerId s sender).1 = s := by
  unfold cmd_admin
  cases his : is_admin ownerId sender.id <;> rfl

/-- The bot state `cmd_me` leaves behind (register; FSM untouched). -/
theorem cmd_me_fst (s : BotState) (sender : Sender) :
    (cmd_me s sender).1 = { s with db := add_user s.db sender.id (orNoName sender.username) } := by
  unfold cmd_me
  generalize get_user (add_user s.db sender.id (orNoName sender.username)) sender.id = o
  cases o <;> rfl

/-- C1 counterexample: with administrator id 1, a sender with id 2 — not
the admin — delivering the credit button payload is not checked: the
dispatcher answers with the target-id prompt and moves that conversation
into the admin flow, contradicting silent denial at this admin-only entry
point. -/
theorem admin_gate_counterexample :
    is_admin 1 2 = false ∧
    step 1 { db := [], fsmState := none, fsmData := FSMData.empty }
        { id := 2, username := none } (Update.callback "admin_add")
      = some ({ db := [], fsmState := some AdminState.waiting_for_user_id,
                fsmData := { action := some "add", user_id := none } },
              ["Введи ID юзера:"]) := by
  exact ⟨by decide, by decide⟩

/-- C1 (amended): only the `/admin` command checks the sender against the
configured administrator id and silently denies a non-matching sender — no
reply, no state change, no ledger write; the credit/debit/broadcast button
handlers perform no identity check, so the same non-matching sender who
delivers an admin button payload is answered and advances into the admin
flow. -/
theorem admin_gate_amended (ownerId : Int) (s : BotState) (sender : Sender)
    (h : sender.id ≠ ownerId) :
    step ownerId s sender (Update.message "/admin") = some (s, []) ∧
    step ownerId s sender (Update.callback "admin_add")
      = some ({ s with fsmData := { s.fsmData with action := some "add" },
                       fsmState := some AdminState.waiting_for_user_id },
              ["Введи ID юзера:"]) ∧
    step ownerId s sender (Update.callback "admin_broadcast")
      = some ({ s with fsmState := some AdminState.waiting_for_broadcast_amount },
              ["Сумма для раздачи всем:"]) := by
  have hadm : is_admin ownerId sender.id = false := by
    unfold is_admin
    rw [beq_eq_false_iff_ne]
    exact h
  refine ⟨?_, process_money_action_add s, rfl⟩
  simp only [step, cmd_admin]
  rw [(by decide : isCommand "/admin" "start" = false),
      (by decide : isCommand "/admin" "me" = false),
      (by decide : isCommand "/admin" "admin" = true), hadm]
  rfl

theorem admin_gate_amended_witness :
    ((2 : Int) ≠ 1) ∧
    step 1 { db := [], fsmState := none, fsmData := FSMData.empty }
        { id := 2, username := none } (Update.message "/admin")
      = some ({ db := [], fsmState := none, fsmData := FSMData.empty }, []) :=
  ⟨by decide,
   (admin_gate_amended 1 { db := [], fsmState := none, fsmData := FSMData.empty }
     { id := 2, username := none } (by decide)).1⟩

/-- Every reachable conversation state satisfies the scratch invariant. -/
theorem reachable_scratch_inv (ownerId : Int) (s : BotState)
    (h : Reachable ownerId s) : ScratchInv s := by
  induction h with
  | init db =>
      exact ⟨fun hc => by rcases hc with hc | hc <;> exact Option.noConfusion hc,
             fun hc => Option.noConfusion hc⟩
  | next s s' sender u replies hr hstep ih =>
      cases u with
      | callback data =>
          simp only [step] at hstep
          by_cases h1 : (data == "admin_add" || data == "admin_remove") = true
          · rw [if_pos h1] at hstep
            rcases (Bool.or_eq_true _ _).mp h1 with hb | hb
            · have hdata : data = "admin_add" := eq_of_beq hb
              subst hdata
              rw [process_money_action_add s] at hstep
              have hp := Option.some.inj hstep
              have hs' : s' = ({ s with fsmData := { s.fsmData with action := some "add" },
                                        fsmState := some AdminState.waiting_for_user_id },
                               ["Введи ID юзера:"]).1 := by rw [hp]
              rw [hs']
              exact ⟨fun _ => Or.inl rfl,
                     fun hc => AdminState.noConfusion (Option.some.inj hc)⟩
            · have hdata : data = "admin_remove" := eq_of_beq hb
              subst hdata
              rw [process_money_action_remove s] at hstep
              have hp := Option.some.inj hstep
              have hs' : s' = ({ s with fsmData := { s.fsmData with action := some "remove" },
                                        fsmState := some AdminState.waiting_for_user_id },
                               ["Введи ID юзера:"]).1 := by rw [hp]
              rw [hs']
              exact ⟨fun _ => Or.inr rfl,
                     fun hc => AdminState.noConfusion (Option.some.inj hc)⟩
          · rw [if_neg h1] at hstep
            by_cases h2 : (data == "admin_broadcast") = true
            · rw [if_pos h2] at hstep
              have hp := Option.some.inj hstep
              have hs' : s' = (broadcast_start s).1 := by rw [hp]
              rw [hs']
              exact ⟨fun hc => by rcases hc with hc | hc <;>
                       exact AdminState.noConfusion (Option.some.inj hc),
                     fun hc => AdminState.noConfusion (Option.some.inj hc)⟩
            · rw [if_neg h2] at hstep
              have hp := Option.some.inj hstep
              have hs' : s' = ((s, ([] : List String))).1 := by rw [hp]
              rw [hs']
              exact ih
      | message text =>
          simp only [step] at hstep
          by_cases h1 : isCommand text "start" = true
          · rw [if_pos h1] at hstep
            have hp := Option.some.inj hstep
            have hs' : s' = (cmd_start s sender).1 := by rw [hp]
            rw [hs']
            exact ⟨ih.1, ih.2⟩
          · rw [if_neg h1] at hstep
            by_cases h2 : isCommand text "me" = true
            · rw [if_pos h2] at hstep
              have hp := Option.some.inj hstep
              have hs' : s' = (cmd_me s sender).1 := by rw [hp]
              rw [hs', cmd_me_fst]
              exact ⟨ih.1, ih.2⟩
            · rw [if_neg h2] at hstep
              by_cases h3 : isCommand text "admin" = true
              · rw [if_pos h3] at hstep
                have hp := Option.some.inj hstep
                have hs' : s' = (cmd_admin ownerId s sender).1 := by rw [hp]
                rw [hs', cmd_admin_fst]
                exact ih
              · rw [if_neg h3] at hstep
                by_cases h4 : (s.fsmState == some AdminState.waiting_for_user_id) = true
                · rw [if_pos h4] at hstep
                  have hfs : s.fsmState = some AdminState.waiting_for_user_id := eq_of_beq h4
                  have hp := Option.some.inj hstep
                  have hs' : s' = (process_user_id s text).1 := by rw [hp]
                  cases hd : isdigit text
                  · rw [hs', process_user_id_nondigit s text hd]
                    exact ih
                  · rw [hs', process_user_id_digit s text hd]
                    exact ⟨fun _ => ih.1 (Or.inl hfs),
                           fun _ => ⟨digitsToNat text, rfl⟩⟩
                · rw [if_neg h4] at hstep
                  by_cases h5 : (s.fsmState == some AdminState.waiting_for_amount) = true
                  · rw [if_pos h5] at hstep
                    have hfs : s.fsmState = some AdminState.waiting_for_amount := eq_of_beq h5
                    cases hd : isdigit text
                    · rw [process_amount_nondigit s text hd] at hstep
                      have hp := Option.some.inj hstep
                      have hs' : s' = ((s, ["Нужны цифры."])).1 := by rw [hp]
                      rw [hs']
                      exact ih
                    · obtain ⟨n, hn⟩ := ih.2 hfs
                      rcases ih.1 (Or.inr hfs) with ha | ha
                      · rw [process_amount_digit s text "add" (n : Int) ha hn hd] at hstep
                        have hp := Option.some.inj hstep
                        have hfst : s'.fsmState = none :=
                          (congrArg (fun p : BotState × List String => p.1.fsmState) hp).symm
                        exact ⟨fun hc => by rcases hc with hc | hc <;> rw [hfst] at hc <;>
                                 exact Option.noConfusion hc,
                               fun hc => by rw [hfst] at hc; exact Option.noConfusion hc⟩
                      · rw [process_amount_digit s text "remove" (n : Int) ha hn hd] at hstep
                        have hp := Option.some.inj hstep
                        have hfst : s'.fsmState = none :=
                          (congrArg (fun p : BotState × List String => p.1.fsmState) hp).symm
                        exact ⟨fun hc => by rcases hc with hc | hc <;> rw [hfst] at hc <;>
                                 exact Option.noConfusion hc,
                               fun hc => by rw [hfst] at hc; exact Option.noConfusion hc⟩
                  · rw [if_neg h5] at hstep
                    by_cases h6 : (s.fsmState == some AdminState.waiting_for_broadcast_amount) = true
                    · rw [if_pos h6] at hstep
                      have hp := Option.some.inj hstep
                      have hs' : s' = (broadcast_finish s text).1 := by rw [hp]
                      rw [hs']
                      rcases broadcast_finish_cases s text with hb | hb
                      · constructor
                        · intro hc
                          rcases hc with hc | hc <;> rw [hb] at hc <;> exact Option.noConfusion hc
                        · intro hc
                          rw [hb] at hc
                          exact Option.noConfusion hc
                      · rw [hb]
                        exact ih
                    · rw [if_neg h6] at hstep
                      have hp := Option.some.inj hstep
                      have hs' : s' = (auto_register s sender).1 := by rw [hp]
                      rw [hs']
                      exact ⟨ih.1, ih.2⟩

/-- C10: in every reachable conversation state whose FSM state is
`waiting_for_amount`, the scratch data holds an action equal to `"add"` or
`"remove"` and a non-negative integer target user id, so `process_amount` —
the handler that reads both keys in that state — never hits a missing key
(it never crashes, i.e. never returns `none`). -/
theorem awaiting_amount_invariant (ownerId : Int) (s : BotState)
    (hr : Reachable ownerId s)
    (hs : s.fsmState = some AdminState.waiting_for_amount) :
    (s.fsmData.action = some "add" ∨ s.fsmData.action = some "remove") ∧
    (∃ n : Int, s.fsmData.user_id = some n ∧ 0 ≤ n) ∧
    ∀ text : String, (process_amount s text).isSome = true := by
  have hinv := reachable_scratch_inv ownerId s hr
  have hact := hinv.1 (Or.inr hs)
  obtain ⟨n, hn⟩ := hinv.2 hs
  refine ⟨hact, ⟨(n : Int), hn, Int.natCast_nonneg n⟩, ?_⟩
  intro text
  cases hd : isdigit text
  · rw [process_amount_nondigit s text hd]
    rfl
  · rcases hact with ha | ha
    · rw [process_amount_digit s text "add" (n : Int) ha hn hd]
      rfl
    · rw [process_amount_digit s text "remove" (n : Int) ha hn hd]
      rfl

theorem awaiting_amount_invariant_witness :
    (amountState.fsmData.action = some "add" ∨ amountState.fsmData.action = some "remove") ∧
    (∃ n : Int, amountState.fsmData.user_id = some n ∧ 0 ≤ n) ∧
    (process_amount amountState "7").isSome = true := by
  have hr1 : Reachable 1 userIdState :=
    Reachable.next idleState userIdState { id := 1, username := none }
      (Update.callback "admin_add") ["Введи ID юзера:"] (Reachable.init []) (by decide)
  have hr2 : Reachable 1 amountState :=
    Reachable.next userIdState amountState { id := 1, username := none }
      (Update.message "5") ["Введи сумму:"] hr1 (by decide)
  have h := awaiting_amount_invariant 1 amountState hr2 rfl
  exact ⟨h.1, h.2.1, h.2.2 "7"⟩
